import Mathlib

set_option autoImplicit false

/-!
Shallow embedding of the core logic of the job-alert bot (src/main.py):
the fingerprinting function `get_job_hash`, the dedup cache store
(`load_job_cache` / `save_job_cache`), the relevance filter `filter_job`,
and the per-listing loop of the cycle orchestrator `main_bot_logic`.

Strings are modelled by Lean `String` (a list of Unicode code points,
matching Python `str` as a sequence of code points).  Python's `str.lower`
is modelled by ASCII lowercasing (every keyword and every string the
program manipulates here is ASCII).  Timestamps are modelled as integers
(seconds); `datetime.isoformat` / `datetime.fromisoformat` form an exact
round-trip on the strings the program itself produces, modelled here by
decimal printing / parsing of the integer timestamp, which has the same
two properties the program relies on: printing is injective with parsing
as its left inverse, and parsing fails (raises `ValueError`) on
non-timestamp strings.
-/

/-- Python `str.lower`, restricted to ASCII letters (all keywords and all
strings handled by the program are ASCII). -/
def pyLower (s : String) : String := ⟨s.data.map Char.toLower⟩

/-- Python `str.strip()` with no argument: drop leading and trailing
whitespace. -/
def pyStrip (s : String) : String :=
  ⟨((s.data.dropWhile Char.isWhitespace).reverse.dropWhile Char.isWhitespace).reverse⟩

/-- Python's substring test `needle in hay`, over code points. -/
def listContainsSub (needle : List Char) : List Char → Bool
  | [] => needle.isEmpty
  | c :: rest => needle.isPrefixOf (c :: rest) || listContainsSub needle rest

/-- String-level wrapper for Python's `needle in hay`. -/
def strContainsSub (hay needle : String) : Bool := listContainsSub needle.data hay.data

/-- INCLUSION_KEYWORDS from src/main.py line 32. -/
def INCLUSION_KEYWORDS : List String :=
  ["javascript", "reactjs", "angular", "jquery", "nextjs", "vue"]

/-- EXCLUSION_KEYWORDS from src/main.py line 33. -/
def EXCLUSION_KEYWORDS : List String :=
  ["associate", "senior", "mid-level", "0-5 years", "lead", "staff", "principal"]

/-- CACHE_RETENTION_HOURS from src/main.py line 37. -/
def CACHE_RETENTION_HOURS : Int := 48

/-- The relevance filter `filter_job` (src/main.py lines 100-110):
build the lower-cased combined text, reject on any exclusion keyword,
else accept on any inclusion keyword, else reject. -/
def filter_job (title description : String) : Bool :=
  let full_text := pyLower (title ++ " " ++ description)
  if EXCLUSION_KEYWORDS.any (fun keyword => strContainsSub full_text keyword) then false
  else if INCLUSION_KEYWORDS.any (fun keyword => strContainsSub full_text keyword) then true
  else false

/-! MD5, embedding `hashlib.md5(...).hexdigest()` used by `get_job_hash`.
Implemented over lists of byte values (`Nat` below 256) with 32-bit
arithmetic carried out modulo 2^32. -/

/-- UTF-8 encoding of one code point (Python `str.encode()` on one character). -/
def utf8BytesOfChar (c : Char) : List Nat :=
  let n := c.toNat
  if n < 0x80 then [n]
  else if n < 0x800 then
    [0xC0 ||| (n >>> 6), 0x80 ||| (n &&& 0x3F)]
  else if n < 0x10000 then
    [0xE0 ||| (n >>> 12), 0x80 ||| ((n >>> 6) &&& 0x3F), 0x80 ||| (n &&& 0x3F)]
  else
    [0xF0 ||| (n >>> 18), 0x80 ||| ((n >>> 12) &&& 0x3F),
     0x80 ||| ((n >>> 6) &&& 0x3F), 0x80 ||| (n &&& 0x3F)]

/-- UTF-8 encoding of a string (Python `str.encode()`). -/
def utf8Encode (s : String) : List Nat := s.data.flatMap utf8BytesOfChar

/-- The 64 MD5 round constants, floor(abs(sin(i+1)) * 2^32). -/
def md5K : List Nat :=
  [3614090360, 3905402710, 606105819, 3250441966, 4118548399, 1200080426,
   2821735955, 4249261313, 1770035416, 2336552879, 4294925233, 2304563134,
   1804603682, 4254626195, 2792965006, 1236535329, 4129170786, 3225465664,
   643717713, 3921069994, 3593408605, 38016083, 3634488961, 3889429448,
   568446438, 3275163606, 4107603335, 1163531501, 2850285829, 4243563512,
   1735328473, 2368359562, 4294588738, 2272392833, 1839030562, 4259657740,
   2763975236, 1272893353, 4139469664, 3200236656, 681279174, 3936430074,
   3572445317, 76029189, 3654602809, 3873151461, 530742520, 3299628645,
   4096336452, 1126891415, 2878612391, 4237533241, 1700485571, 2399980690,
   4293915773, 2240044497, 1873313359, 4264355552, 2734768916, 1309151649,
   4149444226, 3174756917, 718787259, 3951481745]

/-- The per-round left-rotation amounts of MD5. -/
def md5S : List Nat :=
  [7, 12, 17, 22, 7, 12, 17, 22, 7, 12, 17, 22, 7, 12, 17, 22,
   5, 9, 14, 20, 5, 9, 14, 20, 5, 9, 14, 20, 5, 9, 14, 20,
   4, 11, 16, 23, 4, 11, 16, 23, 4, 11, 16, 23, 4, 11, 16, 23,
   6, 10, 15, 21, 6, 10, 15, 21, 6, 10, 15, 21, 6, 10, 15, 21]

/-- 32-bit left rotation on values below 2^32. -/
def rotl32 (x c : Nat) : Nat := ((x <<< c) ||| (x >>> (32 - c))) % 4294967296

/-- Little-endian byte decomposition, `n` bytes of `x`. -/
def leBytes : Nat → Nat → List Nat
  | 0, _ => []
  | n + 1, x => x % 256 :: leBytes n (x / 256)

/-- Read a 32-bit little-endian word out of the byte list at offset `i`. -/
def leWordAt (bytes : List Nat) (i : Nat) : Nat :=
  bytes.getD i 0 + 256 * bytes.getD (i + 1) 0 + 65536 * bytes.getD (i + 2) 0
    + 16777216 * bytes.getD (i + 3) 0

/-- MD5 padding: a 0x80 byte, zeros to 56 mod 64, then the 64-bit
little-endian bit length. -/
def md5Pad (msg : List Nat) : List Nat :=
  let len := msg.length
  let padLen := (119 - len % 64) % 64
  msg ++ [0x80] ++ List.replicate padLen 0 ++ leBytes 8 ((len * 8) % 18446744073709551616)

/-- One MD5 round step: `i` is the round index, `chunk` the current
64-byte block, and the state is the four 32-bit words. -/
def md5Round (chunk : List Nat) (st : Nat × Nat × Nat × Nat) (i : Nat) :
    Nat × Nat × Nat × Nat :=
  let (a, b, c, d) := st
  let f :=
    if i < 16 then (b &&& c) ||| ((4294967295 - b) &&& d)
    else if i < 32 then (d &&& b) ||| ((4294967295 - d) &&& c)
    else if i < 48 then b ^^^ c ^^^ d
    else c ^^^ (b ||| (4294967295 - d))
  let g :=
    if i < 16 then i
    else if i < 32 then (5 * i + 1) % 16
    else if i < 48 then (3 * i + 5) % 16
    else (7 * i) % 16
  let f := (f + a + md5K.getD i 0 + leWordAt chunk (4 * g)) % 4294967296
  (d, (b + rotl32 f (md5S.getD i 0)) % 4294967296, b, c)

/-- Process one 64-byte chunk, updating the four-word state. -/
def md5Chunk (st : Nat × Nat × Nat × Nat) (chunk : List Nat) : Nat × Nat × Nat × Nat :=
  let (a0, b0, c0, d0) := st
  let (a, b, c, d) := (List.range 64).foldl (md5Round chunk) (a0, b0, c0, d0)
  ((a0 + a) % 4294967296, (b0 + b) % 4294967296, (c0 + c) % 4294967296,
   (d0 + d) % 4294967296)

/-- Fold the MD5 compression over the `n` consecutive 64-byte chunks. -/
def md5Chunks (bytes : List Nat) : Nat × Nat × Nat × Nat :=
  (List.range (bytes.length / 64)).foldl
    (fun st i => md5Chunk st ((bytes.drop (64 * i)).take 64))
    (1732584193, 4023233417, 2562383102, 271733878)

/-- One hexadecimal digit (lowercase, as `hexdigest` produces). -/
def hexDigit (n : Nat) : Char :=
  if n < 10 then Char.ofNat (48 + n) else Char.ofNat (87 + n)

/-- Two lowercase hex digits of a byte. -/
def byteToHex (b : Nat) : List Char := [hexDigit (b / 16), hexDigit (b % 16)]

/-- `hashlib.md5(bytes).hexdigest()`: the 16 digest bytes (four words,
little-endian) rendered as 32 lowercase hex characters. -/
def md5Hex (msg : List Nat) : String :=
  let (a, b, c, d) := md5Chunks (md5Pad msg)
  ⟨((leBytes 4 a ++ leBytes 4 b ++ leBytes 4 c ++ leBytes 4 d).flatMap byteToHex)⟩

/-- The fingerprinting function `get_job_hash` (src/main.py lines 74-76):
strip both fields, join with a hyphen, lower-case, UTF-8 encode, MD5. -/
def get_job_hash (job_title company_name : String) : String :=
  md5Hex (utf8Encode (pyLower (pyStrip job_title ++ "-" ++ pyStrip company_name)))

/-! The dedup cache store.  The persisted file is modelled at the level of
its parse result: `FileState.absent` is a missing file, `FileState.corruptText`
is text on which `json.load` raises `JSONDecodeError`, and `FileState.parsed j`
is text that parses to the JSON value `j`.  The in-memory cache is, as in the
source, a mapping from fingerprint to the ISO timestamp STRING (values are
kept as strings by `load_job_cache` and inserted as `isoformat()` strings by
the orchestrator); it is modelled as an insertion-ordered association list,
which is how a Python dict behaves under the operations the program uses. -/

/-- A parsed JSON value, the possible results of `json.load`. -/
inductive JValue where
  | jnull
  | jbool (b : Bool)
  | jnum (n : Int)
  | jstr (s : String)
  | jarr (elems : List JValue)
  | jobj (entries : List (String × JValue))

/-- The state of the persisted cache file as seen by `load_job_cache`. -/
inductive FileState where
  | absent
  | corruptText
  | parsed (j : JValue)

/-- The Python exceptions `load_job_cache` can raise past its own handler
(it catches only `JSONDecodeError` and `FileNotFoundError`). -/
inductive PyError where
  | valueError
  | typeError
  | attributeError
deriving DecidableEq, Repr

/-- In-memory cache: fingerprint to ISO timestamp string, insertion ordered. -/
abbrev Cache := List (String × String)

/-- Model of `datetime.isoformat()` on the timestamps the program produces:
an injective rendering of the time (an integer count of seconds). -/
def isoformat (t : Int) : String := toString t

/-- Decimal digit accumulator: `some` of the value when every character
is a digit, `none` otherwise. -/
def digitsToNat (acc : Nat) : List Char → Option Nat
  | [] => some acc
  | c :: rest => if c.isDigit then digitsToNat (acc * 10 + (c.toNat - 48)) rest else none

/-- Model of `datetime.fromisoformat`: the left inverse of `isoformat`,
failing (raising `ValueError`) on strings that are not timestamps. -/
def fromisoformat (s : String) : Option Int :=
  match s.data with
  | [] => none
  | '-' :: rest =>
      if rest.isEmpty then none
      else (digitsToNat 0 rest).map (fun n => -(n : Int))
  | l => (digitsToNat 0 l).map (fun n => (n : Int))

/-- The dict comprehension inside `load_job_cache` (src/main.py lines 86-90):
walk the parsed entries in order; a non-string value raises `TypeError`
(from `fromisoformat`), an unparseable string raises `ValueError`, and a
parsed timestamp is kept exactly when it is newer than the cutoff. -/
def loadEntries (cutoff : Int) : List (String × JValue) → Except PyError Cache
  | [] => .ok []
  | (job_hash, JValue.jstr s) :: rest =>
      match fromisoformat s with
      | some t =>
          match loadEntries cutoff rest with
          | .ok tail => .ok (if t > cutoff then (job_hash, s) :: tail else tail)
          | .error e => .error e
      | none => .error .valueError
  | (_, _) :: _ => .error .typeError

/-- `load_job_cache` (src/main.py lines 78-93): a missing file yields `{}`;
text that fails JSON parsing yields `{}` (the `JSONDecodeError` handler);
a parsed non-object raises `AttributeError` (`.items()` on a non-dict);
a parsed object is pruned to the entries newer than `now` minus 48 hours,
raising out of the function on any non-timestamp value. -/
def load_job_cache (fs : FileState) (now : Int) : Except PyError Cache :=
  match fs with
  | .absent => .ok []
  | .corruptText => .ok []
  | .parsed (JValue.jobj entries) =>
      loadEntries (now - CACHE_RETENTION_HOURS * 3600) entries
  | .parsed _ => .error .attributeError

/-- `save_job_cache` (src/main.py lines 95-98): serialize the in-memory
mapping in full, overwriting the file. -/
def save_job_cache (cache : Cache) : FileState :=
  .parsed (.jobj (cache.map fun kv => (kv.1, JValue.jstr kv.2)))

/-! The cycle orchestrator `main_bot_logic` (src/main.py lines 220-265).
A scraped listing record. -/

/-- One raw listing as produced by the scraper collaborators. -/
structure Job where
  title : String
  company : String
  link : String
  posted_date : String
  source : String
  description : String
deriving DecidableEq, Repr

/-- The mutable state of one cycle: the in-memory cache, the log of
notification attempts together with the outcome each attempt had
(`send_telegram_notification` catches every exception internally, so the
orchestrator never observes the outcome), and the two counters. -/
structure CycleState where
  job_cache : Cache
  notified : List (Job × Bool)
  new_notification_count : Nat
  filtered_out_count : Nat
deriving DecidableEq, Repr

/-- Python's `job_hash in job_cache` membership test. -/
def dictContains (cache : Cache) (key : String) : Bool :=
  cache.any (fun kv => kv.1 == key)

/-- The body of the per-listing loop (src/main.py lines 239-252).
`clock k` is the value of `datetime.now()` at the k-th notification of the
cycle; `notifyOk` is the outcome of the dispatch attempt, which the code
ignores.  A cached fingerprint is skipped; a relevant uncached listing is
dispatched and its fingerprint recorded (a fresh dict key, hence appended
in insertion order); an irrelevant one only bumps the filtered counter. -/
def processJob (clock : Nat → Int) (notifyOk : Job → Bool) (st : CycleState)
    (job : Job) : CycleState :=
  let job_hash := get_job_hash job.title job.company
  if dictContains st.job_cache job_hash then st
  else if filter_job job.title job.description then
    { st with
      notified := st.notified ++ [(job, notifyOk job)]
      job_cache := st.job_cache ++ [(job_hash, isoformat (clock st.new_notification_count))]
      new_notification_count := st.new_notification_count + 1 }
  else { st with filtered_out_count := st.filtered_out_count + 1 }

/-- The per-listing loop over the concatenated scraper outputs. -/
def runJobLoop (clock : Nat → Int) (notifyOk : Job → Bool) (jobs : List Job)
    (st : CycleState) : CycleState :=
  jobs.foldl (processJob clock notifyOk) st

/-- The state at the top of the loop: the loaded cache, nothing notified,
both counters zero. -/
def initState (cache : Cache) : CycleState :=
  { job_cache := cache, notified := [], new_notification_count := 0,
    filtered_out_count := 0 }

/-- One whole cycle of `main_bot_logic`: load (an uncaught load error is
swallowed by the cycle-level handler, ending the cycle with the file
untouched and nothing notified), run the loop, save.  Returns the file
state after the cycle and, when the loop ran, its final state. -/
def main_bot_logic (fs : FileState) (now : Int) (clock : Nat → Int)
    (notifyOk : Job → Bool) (scraped : List Job) : FileState × Option CycleState :=
  match load_job_cache fs now with
  | .error _ => (fs, none)
  | .ok cache =>
      let final := runJobLoop clock notifyOk scraped (initState cache)
      (save_job_cache final.job_cache, some final)

/-- Number of cache entries carrying a given fingerprint key. -/
def countKey (cache : Cache) (key : String) : Nat :=
  (cache.filter (fun kv => kv.1 == key)).length

/-- Number of notification attempts whose listing has a given fingerprint. -/
def countNotified (attempts : List (Job × Bool)) (key : String) : Nat :=
  (attempts.filter (fun jb => get_job_hash jb.1.title jb.1.company == key)).length

/-! Claim theorems. -/

/-- C1: for every title and description, if the lower-cased concatenation
of title, a space, and description contains any exclusion keyword as a
substring, then `filter_job` returns false, regardless of any inclusion
keyword matches (exclusion has absolute priority). -/
theorem filter_job_exclusion_rejects (title description : String)
    (h : EXCLUSION_KEYWORDS.any
      (fun keyword => strContainsSub (pyLower (title ++ " " ++ description)) keyword) = true) :
    filter_job title description = false := by
  simp only [filter_job, h, if_true]

/-- Witness for C1: the spec's example, title "Senior React Developer",
whose text contains the exclusion keyword "senior", is rejected. -/
theorem filter_job_exclusion_rejects_witness :
    EXCLUSION_KEYWORDS.any
      (fun keyword => strContainsSub (pyLower ("Senior React Developer" ++ " " ++ "")) keyword) = true
    ∧ filter_job "Senior React Developer" "" = false :=
  ⟨by decide, filter_job_exclusion_rejects "Senior React Developer" "" (by decide)⟩

/-- C9: for every title and description whose lower-cased combined text
contains no exclusion keyword and no inclusion keyword, `filter_job`
returns false (default-deny). -/
theorem filter_job_default_deny (title description : String)
    (hexc : EXCLUSION_KEYWORDS.any
      (fun keyword => strContainsSub (pyLower (title ++ " " ++ description)) keyword) = false)
    (hinc : INCLUSION_KEYWORDS.any
      (fun keyword => strContainsSub (pyLower (title ++ " " ++ description)) keyword) = false) :
    filter_job title description = false := by
  simp only [filter_job, hexc, hinc, if_false, Bool.false_eq_true]

/-- Witness for C9: with the default keyword lists, title
"Backend Java Developer" with empty description matches neither list and
is rejected. -/
theorem filter_job_default_deny_witness :
    EXCLUSION_KEYWORDS.any
      (fun keyword => strContainsSub (pyLower ("Backend Java Developer" ++ " " ++ "")) keyword) = false
    ∧ INCLUSION_KEYWORDS.any
      (fun keyword => strContainsSub (pyLower ("Backend Java Developer" ++ " " ++ "")) keyword) = false
    ∧ filter_job "Backend Java Developer" "" = false :=
  ⟨by decide, by decide, filter_job_default_deny "Backend Java Developer" "" (by decide) (by decide)⟩

/-- C6: a listing whose fingerprint is not yet cached and that the
relevance filter rejects leaves the cache mapping unchanged (its
fingerprint is not recorded) and triggers no notification attempt; only
the filtered-out counter moves, so the same listing would be evaluated by
the filter again in a later cycle rather than skipped via the cache. -/
theorem processJob_irrelevant_leaves_cache (clock : Nat → Int) (notifyOk : Job → Bool)
    (st : CycleState) (job : Job)
    (hnc : dictContains st.job_cache (get_job_hash job.title job.company) = false)
    (hir : filter_job job.title job.description = false) :
    (processJob clock notifyOk st job).job_cache = st.job_cache
    ∧ (processJob clock notifyOk st job).notified = st.notified
    ∧ processJob clock notifyOk st job
        = { st with filtered_out_count := st.filtered_out_count + 1 } := by
  simp only [processJob, hnc, hir, Bool.false_eq_true, if_false]
  exact ⟨trivial, trivial, trivial⟩

/-- Witness for C6: the irrelevant listing "Backend Java Developer"
processed against an empty cache records nothing. -/
theorem processJob_irrelevant_leaves_cache_witness :
    (processJob (fun _ => 0) (fun _ => true) (initState [])
      ⟨"Backend Java Developer", "Acme", "l", "today", "Naukri", ""⟩).job_cache = []
    ∧ (processJob (fun _ => 0) (fun _ => true) (initState [])
      ⟨"Backend Java Developer", "Acme", "l", "today", "Naukri", ""⟩).notified = []
    ∧ processJob (fun _ => 0) (fun _ => true) (initState [])
        ⟨"Backend Java Developer", "Acme", "l", "today", "Naukri", ""⟩
      = { initState [] with filtered_out_count := 1 } :=
  processJob_irrelevant_leaves_cache (fun _ => 0) (fun _ => true) (initState [])
    ⟨"Backend Java Developer", "Acme", "l", "today", "Naukri", ""⟩ rfl (by decide)

/-- C8: a relevant, not-yet-cached listing has its fingerprint recorded
with the current timestamp immediately after the notification attempt,
whatever outcome the attempt had: the cache update and the whole
resulting state do not depend on the notification outcome function, so a
failed dispatch is cached exactly as a successful one and the loop
continues unchanged past it. -/
theorem processJob_caches_after_any_notify_outcome (clock : Nat → Int)
    (notifyOk notifyOk2 : Job → Bool) (st : CycleState) (job : Job)
    (hnc : dictContains st.job_cache (get_job_hash job.title job.company) = false)
    (hrel : filter_job job.title job.description = true) :
    (processJob clock notifyOk st job).job_cache
      = st.job_cache
        ++ [(get_job_hash job.title job.company, isoformat (clock st.new_notification_count))]
    ∧ (processJob clock notifyOk st job).notified = st.notified ++ [(job, notifyOk job)]
    ∧ (processJob clock notifyOk st job).job_cache = (processJob clock notifyOk2 st job).job_cache
    ∧ (processJob clock notifyOk st job).new_notification_count = st.new_notification_count + 1 := by
  simp only [processJob, hnc, hrel, Bool.false_eq_true, if_false, if_true]
  exact ⟨trivial, trivial, trivial, trivial⟩

/-- Witness for C8: a relevant listing dispatched with an always-failing
notifier is still cached, identically to an always-succeeding notifier. -/
theorem processJob_caches_after_any_notify_outcome_witness :
    (processJob (fun _ => 7) (fun _ => false) (initState [])
      ⟨"Frontend Developer (ReactJS)", "Acme", "l", "today", "Naukri", ""⟩).job_cache
      = [] ++ [(get_job_hash "Frontend Developer (ReactJS)" "Acme", isoformat 7)]
    ∧ (processJob (fun _ => 7) (fun _ => false) (initState [])
      ⟨"Frontend Developer (ReactJS)", "Acme", "l", "today", "Naukri", ""⟩).notified
      = [] ++ [(⟨"Frontend Developer (ReactJS)", "Acme", "l", "today", "Naukri", ""⟩, false)]
    ∧ (processJob (fun _ => 7) (fun _ => false) (initState [])
      ⟨"Frontend Developer (ReactJS)", "Acme", "l", "today", "Naukri", ""⟩).job_cache
      = (processJob (fun _ => 7) (fun _ => true) (initState [])
      ⟨"Frontend Developer (ReactJS)", "Acme", "l", "today", "Naukri", ""⟩).job_cache
    ∧ (processJob (fun _ => 7) (fun _ => false) (initState [])
      ⟨"Frontend Developer (ReactJS)", "Acme", "l", "today", "Naukri", ""⟩).new_notification_count
      = 0 + 1 :=
  processJob_caches_after_any_notify_outcome (fun _ => 7) (fun _ => false) (fun _ => true)
    (initState [])
    ⟨"Frontend Developer (ReactJS)", "Acme", "l", "today", "Naukri", ""⟩ rfl (by decide)

/-- C4: the fingerprint is invariant under trimming leading and trailing
whitespace of either field and under changing letter case: any two
(title, company) pairs that agree after stripping and lower-casing get
the same `get_job_hash`. -/
theorem get_job_hash_normalization (t1 c1 t2 c2 : String)
    (ht : pyLower (pyStrip t1) = pyLower (pyStrip t2))
    (hc : pyLower (pyStrip c1) = pyLower (pyStrip c2)) :
    get_job_hash t1 c1 = get_job_hash t2 c2 := by
  have ht' : (pyStrip t1).data.map Char.toLower = (pyStrip t2).data.map Char.toLower :=
    congrArg String.data ht
  have hc' : (pyStrip c1).data.map Char.toLower = (pyStrip c2).data.map Char.toLower :=
    congrArg String.data hc
  unfold get_job_hash
  apply congrArg
  apply congrArg
  apply String.ext
  simp only [pyLower, String.data_append, List.map_append, ht', hc']

/-- Witness for C4: a padded mixed-case pair and its stripped lower-case
variant fingerprint identically. -/
theorem get_job_hash_normalization_witness :
    pyLower (pyStrip "  Frontend Developer (ReactJS) ") = pyLower (pyStrip "frontend developer (reactjs)")
    ∧ pyLower (pyStrip "Acme Corp") = pyLower (pyStrip " ACME CORP")
    ∧ get_job_hash "  Frontend Developer (ReactJS) " "Acme Corp"
        = get_job_hash "frontend developer (reactjs)" " ACME CORP" :=
  ⟨by decide, by decide,
   get_job_hash_normalization "  Frontend Developer (ReactJS) " "Acme Corp"
     "frontend developer (reactjs)" " ACME CORP" (by decide) (by decide)⟩

/-- C2 (amended): a missing cache file and cache contents that fail JSON
parsing both make `load_job_cache` return the empty cache without
raising. -/
theorem load_job_cache_absent_or_unparseable (now : Int) :
    load_job_cache .absent now = .ok [] ∧ load_job_cache .corruptText now = .ok [] :=
  ⟨rfl, rfl⟩

/-- Counterexample to C2 as stated: persisted state that is well-formed
JSON but malformed in structure is NOT turned into an empty cache.  A
JSON array makes `load_job_cache` raise `AttributeError` (`.items()` on a
list), and a JSON object whose value is not a parseable timestamp makes
it raise `ValueError` (from `datetime.fromisoformat`); only
`JSONDecodeError` and `FileNotFoundError` are caught. -/
theorem load_job_cache_raises_on_malformed_structure :
    load_job_cache (.parsed (.jarr [])) 0 = .error .attributeError
    ∧ (load_job_cache (.parsed (.jarr [])) 0).isOk = false
    ∧ load_job_cache (.parsed (.jobj [("a", .jstr "not-a-timestamp")])) 0
        = .error .valueError :=
  ⟨rfl, rfl, rfl⟩

/-- Characterization of the pruning comprehension: when `loadEntries`
succeeds, an entry is in the result exactly when it appears in the parsed
object with a timestamp newer than the cutoff. -/
theorem loadEntries_mem_iff (cutoff : Int) :
    ∀ (entries : List (String × JValue)) (c : Cache),
      loadEntries cutoff entries = .ok c → ∀ k s : String,
      ((k, s) ∈ c ↔ ((k, JValue.jstr s) ∈ entries
        ∧ ∃ t, fromisoformat s = some t ∧ t > cutoff)) := by
  intro entries
  induction entries with
  | nil =>
      intro c h k s
      simp only [loadEntries, Except.ok.injEq] at h
      subst h
      simp
  | cons kv rest ih =>
      intro c h k s
      obtain ⟨k1, v⟩ := kv
      cases v with
      | jstr s1 =>
          simp only [loadEntries] at h
          cases hfrom : fromisoformat s1 with
          | none => rw [hfrom] at h; cases h
          | some t =>
              rw [hfrom] at h
              cases htail : loadEntries cutoff rest with
              | error e => rw [htail] at h; cases h
              | ok tail =>
                  rw [htail] at h
                  simp only [Except.ok.injEq] at h
                  subst h
                  by_cases hcut : t > cutoff
                  · simp only [if_pos hcut, List.mem_cons, Prod.mk.injEq, JValue.jstr.injEq,
                      ih tail htail]
                    constructor
                    · rintro (⟨hk, hs⟩ | ⟨hmem, t2, ht2, hgt⟩)
                      · subst hk; subst hs; exact ⟨Or.inl ⟨rfl, rfl⟩, t, hfrom, hcut⟩
                      · exact ⟨Or.inr hmem, t2, ht2, hgt⟩
                    · rintro ⟨⟨hk, hs⟩ | hmem, t2, ht2, hgt⟩
                      · exact Or.inl ⟨hk, hs⟩
                      · exact Or.inr ⟨hmem, t2, ht2, hgt⟩
                  · simp only [if_neg hcut, List.mem_cons, Prod.mk.injEq, JValue.jstr.injEq,
                      ih tail htail]
                    constructor
                    · rintro ⟨hmem, t2, ht2, hgt⟩
                      exact ⟨Or.inr hmem, t2, ht2, hgt⟩
                    · rintro ⟨⟨hk, hs⟩ | hmem, t2, ht2, hgt⟩
                      · subst hk; subst hs
                        rw [hfrom] at ht2
                        injection ht2 with ht2
                        subst ht2
                        exact absurd hgt hcut
                      · exact ⟨hmem, t2, ht2, hgt⟩
      | jnull => cases h
      | jbool b => cases h
      | jnum n => cases h
      | jarr elems => cases h
      | jobj entries2 => cases h

/-- C3: after a successful `load_job_cache` with the 48-hour retention
window, an entry is present exactly when it appeared in the persisted
object with a timestamp strictly newer than `now` minus 48 hours; in
particular an entry first seen 49 hours before `now` is dropped and one
first seen 47 hours before `now` is kept. -/
theorem load_job_cache_retention (now : Int) (entries : List (String × JValue)) (c : Cache)
    (h : load_job_cache (.parsed (.jobj entries)) now = .ok c) (k s : String) :
    ((k, s) ∈ c ↔ ((k, JValue.jstr s) ∈ entries
      ∧ ∃ t, fromisoformat s = some t ∧ t > now - CACHE_RETENTION_HOURS * 3600)) :=
  loadEntries_mem_iff (now - CACHE_RETENTION_HOURS * 3600) entries c h k s

/-- Witness for C3: with `now = 200000` seconds, the entry stamped
`23600 = now - 49 * 3600` is absent from the loaded cache and the entry
stamped `30800 = now - 47 * 3600` is present. -/
theorem load_job_cache_retention_witness :
    ((("old", "23600") ∈ ([("fresh", "30800")] : Cache)) ↔
      (("old", JValue.jstr "23600")
          ∈ [("old", JValue.jstr "23600"), ("fresh", JValue.jstr "30800")]
        ∧ ∃ t, fromisoformat "23600" = some t ∧ t > 200000 - CACHE_RETENTION_HOURS * 3600))
    ∧ ((("fresh", "30800") ∈ ([("fresh", "30800")] : Cache)) ↔
      (("fresh", JValue.jstr "30800")
          ∈ [("old", JValue.jstr "23600"), ("fresh", JValue.jstr "30800")]
        ∧ ∃ t, fromisoformat "30800" = some t ∧ t > 200000 - CACHE_RETENTION_HOURS * 3600)) :=
  ⟨load_job_cache_retention 200000
      [("old", JValue.jstr "23600"), ("fresh", JValue.jstr "30800")]
      [("fresh", "30800")] rfl "old" "23600",
   load_job_cache_retention 200000
      [("old", JValue.jstr "23600"), ("fresh", JValue.jstr "30800")]
      [("fresh", "30800")] rfl "fresh" "30800"⟩

/-- C5: saving the in-memory cache and loading it back returns the cache
unchanged, provided every entry's timestamp parses and lies within the
48-hour retention window at load time. -/
theorem save_load_roundtrip (now : Int) :
    ∀ cache : Cache,
      (∀ kv ∈ cache, ∃ t, fromisoformat kv.2 = some t
          ∧ t > now - CACHE_RETENTION_HOURS * 3600) →
      load_job_cache (save_job_cache cache) now = .ok cache := by
  intro cache
  induction cache with
  | nil => intro _; rfl
  | cons kv rest ih =>
      intro h
      obtain ⟨k, s⟩ := kv
      obtain ⟨t, hts, hgt⟩ := h (k, s) (List.mem_cons_self _ _)
      have hrest := ih (fun kv2 hkv2 => h kv2 (List.mem_cons_of_mem _ hkv2))
      simp only [save_job_cache, load_job_cache, List.map_cons] at hrest ⊢
      simp only [loadEntries]
      rw [hts, hrest]
      simp only [if_pos hgt]

/-- Witness for C5: a two-entry cache with fresh timestamps round-trips
through save and load unchanged. -/
theorem save_load_roundtrip_witness :
    (∀ kv ∈ ([("a", "100"), ("b", "200")] : Cache), ∃ t, fromisoformat kv.2 = some t
        ∧ t > 0 - CACHE_RETENTION_HOURS * 3600)
    ∧ load_job_cache (save_job_cache [("a", "100"), ("b", "200")]) 0
        = .ok [("a", "100"), ("b", "200")] := by
  have hfresh : ∀ kv ∈ ([("a", "100"), ("b", "200")] : Cache), ∃ t, fromisoformat kv.2 = some t
      ∧ t > 0 - CACHE_RETENTION_HOURS * 3600 := by
    intro kv hkv
    simp only [List.mem_cons, List.not_mem_nil, or_false] at hkv
    rcases hkv with h | h
    · subst h; exact ⟨100, rfl, by decide⟩
    · subst h; exact ⟨200, rfl, by decide⟩
  exact ⟨hfresh, save_load_roundtrip 0 [("a", "100"), ("b", "200")] hfresh⟩

/-- Counting a key across an append splits into the two parts. -/
theorem countKey_append (c e : Cache) (k : String) :
    countKey (c ++ e) k = countKey c k + countKey e k := by
  simp [countKey, List.filter_append]

/-- Counting notification attempts across an append splits. -/
theorem countNotified_append (a b : List (Job × Bool)) (k : String) :
    countNotified (a ++ b) k = countNotified a k + countNotified b k := by
  simp [countNotified, List.filter_append]

/-- A key the membership test rejects occurs zero times. -/
theorem countKey_eq_zero_of_not_contains (c : Cache) (k : String)
    (h : dictContains c k = false) : countKey c k = 0 := by
  induction c with
  | nil => rfl
  | cons kv rest ih =>
      simp only [dictContains, List.any_cons, Bool.or_eq_false_iff] at h
      obtain ⟨h1, h2⟩ := h
      simp only [countKey, List.filter_cons, h1]
      exact ih h2

/-- Loop invariant behind C7: running the per-listing loop adds, for any
fixed fingerprint, at most one cache entry and at most one notification
attempt, the two in lockstep, and adds one only when the fingerprint was
absent from the cache at the start. -/
theorem runJobLoop_dedup_aux (clock : Nat → Int) (notifyOk : Job → Bool) (key : String) :
    ∀ (jobs : List Job) (st : CycleState),
      ∃ d, d ≤ 1
        ∧ countKey (runJobLoop clock notifyOk jobs st).job_cache key
            = countKey st.job_cache key + d
        ∧ countNotified (runJobLoop clock notifyOk jobs st).notified key
            = countNotified st.notified key + d
        ∧ (d = 1 → countKey st.job_cache key = 0) := by
  intro jobs
  induction jobs with
  | nil =>
      intro st
      exact ⟨0, Nat.zero_le 1, rfl, rfl, fun h => absurd h one_ne_zero.symm⟩
  | cons job rest ih =>
      intro st
      have hstep : runJobLoop clock notifyOk (job :: rest) st
          = runJobLoop clock notifyOk rest (processJob clock notifyOk st job) := rfl
      rw [hstep]
      obtain ⟨d, hd1, hck, hcn, himp⟩ := ih (processJob clock notifyOk st job)
      by_cases hc : dictContains st.job_cache (get_job_hash job.title job.company) = true
      · have hcache : (processJob clock notifyOk st job).job_cache = st.job_cache := by
          simp [processJob, hc]
        have hnot : (processJob clock notifyOk st job).notified = st.notified := by
          simp [processJob, hc]
        rw [hcache] at hck himp
        rw [hnot] at hcn
        exact ⟨d, hd1, hck, hcn, himp⟩
      · have hc2 : dictContains st.job_cache (get_job_hash job.title job.company) = false := by
          simpa using hc
        by_cases hf : filter_job job.title job.description = true
        · have hcache : (processJob clock notifyOk st job).job_cache
              = st.job_cache ++ [(get_job_hash job.title job.company,
                  isoformat (clock st.new_notification_count))] := by
            simp [processJob, hc2, hf]
          have hnot : (processJob clock notifyOk st job).notified
              = st.notified ++ [(job, notifyOk job)] := by
            simp [processJob, hc2, hf]
          rw [hcache, countKey_append] at hck himp
          rw [hnot, countNotified_append] at hcn
          by_cases hkey : get_job_hash job.title job.company = key
          · have hbeq : (get_job_hash job.title job.company == key) = true :=
              beq_iff_eq.mpr hkey
            have hone : countKey [(get_job_hash job.title job.company,
                isoformat (clock st.new_notification_count))] key = 1 := by
              simp [countKey, List.filter_cons, hbeq]
            have hnone : countNotified [(job, notifyOk job)] key = 1 := by
              simp [countNotified, List.filter_cons, hbeq]
            have hzero : countKey st.job_cache key = 0 :=
              hkey ▸ countKey_eq_zero_of_not_contains _ _ hc2
            have hd0 : d = 0 := by
              by_contra hne
              have hd1' : d = 1 := by omega
              have h0 := himp hd1'
              omega
            refine ⟨1, le_refl 1, by omega, by omega, fun _ => hzero⟩
          · have hbeq : (get_job_hash job.title job.company == key) = false :=
              beq_eq_false_iff_ne.mpr hkey
            have hzero1 : countKey [(get_job_hash job.title job.company,
                isoformat (clock st.new_notification_count))] key = 0 := by
              simp [countKey, List.filter_cons, hbeq]
            have hzero2 : countNotified [(job, notifyOk job)] key = 0 := by
              simp [countNotified, List.filter_cons, hbeq]
            refine ⟨d, hd1, by omega, by omega, fun hd => by have := himp hd; omega⟩
        · have hf2 : filter_job job.title job.description = false := by
            simpa using hf
          have hcache : (processJob clock notifyOk st job).job_cache = st.job_cache := by
            simp [processJob, hc2, hf2]
          have hnot : (processJob clock notifyOk st job).notified = st.notified := by
            simp [processJob, hc2, hf2]
          rw [hcache] at hck himp
          rw [hnot] at hcn
          exact ⟨d, hd1, hck, hcn, himp⟩

/-- C7: within one cycle, for every fingerprint — in particular the
common fingerprint of two listings with identical (title, company) after
normalization, whatever their link, date, source or description — the
loop dispatches at most one notification and creates at most one cache
entry beyond those already present at cycle start. -/
theorem runJobLoop_at_most_one_per_fingerprint (clock : Nat → Int) (notifyOk : Job → Bool)
    (jobs : List Job) (cache0 : Cache) (key : String) :
    countNotified (runJobLoop clock notifyOk jobs (initState cache0)).notified key ≤ 1
    ∧ countKey (runJobLoop clock notifyOk jobs (initState cache0)).job_cache key
        ≤ countKey cache0 key + 1 := by
  obtain ⟨d, hd1, hck, hcn, _⟩ :=
    runJobLoop_dedup_aux clock notifyOk key jobs (initState cache0)
  have hinit_cache : (initState cache0).job_cache = cache0 := rfl
  have hinit_not : countNotified (initState cache0).notified key = 0 := rfl
  rw [hinit_cache] at hck
  rw [hinit_not] at hcn
  exact ⟨by omega, by omega⟩

/-- Monotone growth of the cache over the per-listing loop: the final
cache is the starting cache followed by entries whose fingerprints were
not present at the start.  No entry is removed or overwritten. -/
theorem runJobLoop_cache_extends (clock : Nat → Int) (notifyOk : Job → Bool) :
    ∀ (jobs : List Job) (st : CycleState),
      ∃ ext, (runJobLoop clock notifyOk jobs st).job_cache = st.job_cache ++ ext
        ∧ ∀ kv ∈ ext, dictContains st.job_cache kv.1 = false := by
  intro jobs
  induction jobs with
  | nil =>
      intro st
      exact ⟨[], by simp [runJobLoop], by simp⟩
  | cons job rest ih =>
      intro st
      have hstep : runJobLoop clock notifyOk (job :: rest) st
          = runJobLoop clock notifyOk rest (processJob clock notifyOk st job) := rfl
      rw [hstep]
      obtain ⟨ext, hext, hfresh⟩ := ih (processJob clock notifyOk st job)
      by_cases hc : dictContains st.job_cache (get_job_hash job.title job.company) = true
      · have hcache : (processJob clock notifyOk st job).job_cache = st.job_cache := by
          simp [processJob, hc]
        rw [hcache] at hext hfresh
        exact ⟨ext, hext, hfresh⟩
      · have hc2 : dictContains st.job_cache (get_job_hash job.title job.company) = false := by
          simpa using hc
        by_cases hf : filter_job job.title job.description = true
        · have hcache : (processJob clock notifyOk st job).job_cache
              = st.job_cache ++ [(get_job_hash job.title job.company,
                  isoformat (clock st.new_notification_count))] := by
            simp [processJob, hc2, hf]
          rw [hcache] at hext hfresh
          refine ⟨(get_job_hash job.title job.company,
              isoformat (clock st.new_notification_count)) :: ext, ?_, ?_⟩
          · rw [hext, List.append_assoc]
            rfl
          · intro kv hkv
            rcases List.mem_cons.mp hkv with hkv | hkv
            · subst hkv
              exact hc2
            · have hb := hfresh kv hkv
              simp only [dictContains, List.any_append, Bool.or_eq_false_iff] at hb
              exact hb.1
        · have hf2 : filter_job job.title job.description = false := by
            simpa using hf
          have hcache : (processJob clock notifyOk st job).job_cache = st.job_cache := by
            simp [processJob, hc2, hf2]
          rw [hcache] at hext hfresh
          exact ⟨ext, hext, hfresh⟩

/-- C10: within one cycle the in-memory cache only grows: the cache at
the end of the per-listing loop is the loaded cache extended, in order,
by entries for fingerprints that were not cached at cycle start — every
loaded entry is still present with its timestamp unchanged, and no
existing entry is overwritten. -/
theorem runJobLoop_cache_monotone (clock : Nat → Int) (notifyOk : Job → Bool)
    (jobs : List Job) (cache0 : Cache) :
    ∃ ext, (runJobLoop clock notifyOk jobs (initState cache0)).job_cache = cache0 ++ ext
      ∧ ∀ kv ∈ ext, dictContains cache0 kv.1 = false :=
  runJobLoop_cache_extends clock notifyOk jobs (initState cache0)
